import Mathlib

/-!
Verification of the MIME-part exploder (`parseMIMEmail.go`).

The Go source under verification defines `BuildFileName`, `WritePart`,
`ParsePart` and `main`.  Those four functions are embedded below under the
same names (inside namespace `MimeEmail`).  The Go standard-library
collaborators they call (`mime.ParseMediaType`, `mime/multipart`'s reader,
`net/textproto` header parsing, `encoding/base64`,
`mime/quotedprintable`, `mime.ExtensionsByType`, `Part.FileName`) are not
part of the repository's source; each is modelled from the specification's
component contracts and carries a doc comment saying so.

Modelling conventions:
- A byte stream is a list of text lines (`List String`); a part's body is
  its lines joined with a line feed.  Bytes are modelled as characters.
- The observable behaviour of a run is a list of `Event`s: one
  `partWritten` per successful file write, one `decodeError` per reported
  transfer-decoding failure, one `tokenizeError` per reported tokenizer
  failure.  Purely diagnostic prints (the indentation banners and header
  dumps on standard output) are not events.
- The file-system is a parameter `fs : String → Bool` telling whether
  writing a given file name succeeds.  The Go code discards the error
  returned by `ioutil.WriteFile`, so a failed write produces no event.
- `ParsePart`'s recursion is realised through a fuel parameter
  (`ParsePartFuel`); `ParsePart` supplies fuel strictly larger than the
  number of input lines, which is always sufficient
  (`parsePartFuel_adequate`), so `ParsePart` computes the exact recursive
  behaviour of the Go function.
-/

namespace MimeEmail

/-- The space character, written numerically. -/
def spaceChar : Char := Char.ofNat 32

/-- The horizontal tab character. -/
def tabChar : Char := Char.ofNat 9

/-- The double-quote character. -/
def quoteChar : Char := Char.ofNat 34

/-- The backslash character. -/
def backslashChar : Char := Char.ofNat 92

/-- The line-feed character. -/
def lfChar : Char := Char.ofNat 10

/-- The carriage-return character. -/
def crChar : Char := Char.ofNat 13

/-- Lowercase one ASCII letter. -/
def lowerChar (c : Char) : Char :=
  if 'A' ≤ c ∧ c ≤ 'Z' then Char.ofNat (c.toNat + 32) else c

/-- Uppercase one ASCII letter. -/
def upperChar (c : Char) : Char :=
  if 'a' ≤ c ∧ c ≤ 'z' then Char.ofNat (c.toNat - 32) else c

/-- Lowercase a string (ASCII letters). -/
def strLower (s : String) : String := String.mk (s.data.map lowerChar)

/-- Uppercase a string (ASCII letters). -/
def strUpper (s : String) : String := String.mk (s.data.map upperChar)

/-- Whitespace as trimmed from header values and parameter pieces. -/
def isSpaceChar (c : Char) : Bool :=
  c == spaceChar || c == tabChar || c == crChar || c == lfChar

/-- Trim whitespace from both ends of a string. -/
def strTrim (s : String) : String :=
  String.mk (((s.data.dropWhile isSpaceChar).reverse.dropWhile isSpaceChar).reverse)

/-- Whether the first list starts with the second. -/
def listStarts : List Char → List Char → Bool
  | _, [] => true
  | [], _ :: _ => false
  | c :: cs, p :: ps => c == p && listStarts cs ps

/-- Whether `s` starts with `pre` (`strings.HasPrefix` in the Go source). -/
def strStarts (s pre : String) : Bool := listStarts s.data pre.data

/-- Split a list of characters at the first occurrence of `ch`; `none` if
`ch` does not occur. -/
def splitAtFirst (ch : Char) : List Char → Option (List Char × List Char)
  | [] => none
  | c :: rest =>
    if c == ch then some ([], rest)
    else (fun p => (c :: p.1, p.2)) <$> splitAtFirst ch rest

/-- Modelled from the spec: the Content-Type Classifier splits its input
on top-level semicolons, not inside quoted strings (a backslash escapes
the next character inside a quoted string).  Accumulates the current
piece in reverse. -/
def splitSemisAux : List Char → Bool → List Char → List (List Char)
  | [], _, cur => [cur.reverse]
  | c :: rest, inQ, cur =>
    if c == quoteChar then splitSemisAux rest (!inQ) (c :: cur)
    else if c == backslashChar && inQ then
      match rest with
      | c2 :: rest2 => splitSemisAux rest2 inQ (c2 :: c :: cur)
      | [] => [(c :: cur).reverse]
    else if c == ';' && !inQ then cur.reverse :: splitSemisAux rest false []
    else splitSemisAux rest inQ (c :: cur)

/-- Modelled from the spec: split a header value on top-level semicolons. -/
def splitTopSemis (s : String) : List String :=
  (splitSemisAux s.data false []).map String.mk

/-- Modelled from the spec: the body of a quoted parameter value, after
the opening quote.  Requires a closing quote ending the value; a
backslash escapes the next character. -/
def unescapeQuoted : List Char → Option (List Char)
  | [] => none
  | c :: rest =>
    if c == quoteChar then (if rest.isEmpty then some [] else none)
    else if c == backslashChar then
      match rest with
      | c2 :: rest2 => (fun l => c2 :: l) <$> unescapeQuoted rest2
      | [] => none
    else (fun l => c :: l) <$> unescapeQuoted rest

/-- Modelled from the spec: one `key=value` parameter of a
Content-Type-shaped value.  The key is lowercased; the value may be a
quoted string (stored unescaped, unquoted) or a bare token (stored
verbatim).  A piece without an equals sign, an empty key, or an empty or
malformed value is a syntactically invalid parameter. -/
def parseParam (s : String) : Option (String × String) :=
  match splitAtFirst '=' (strTrim s).data with
  | none => none
  | some (k, v) =>
    let key := strLower (strTrim (String.mk k))
    if key == "" then none
    else
      let vt := strTrim (String.mk v)
      match vt.data with
      | [] => none
      | c :: rest =>
        if c == quoteChar then
          (fun l => (key, String.mk l)) <$> unescapeQuoted rest
        else some (key, vt)

/-- Modelled from the spec: parse all parameter pieces, skipping pieces
that are empty after trimming; any syntactically invalid piece fails the
whole parse. -/
def parseParams (pieces : List String) : Option (List (String × String)) :=
  (pieces.filter (fun s => !(strTrim s == ""))).mapM parseParam

/-- Modelled from the spec: the Content-Type Classifier
(`mime.ParseMediaType` in the Go source).  Splits on top-level
semicolons; the first piece, trimmed and lowercased, is the media type
and must be non-empty and contain a slash; the remaining pieces are
`key=value` parameters.  Returns `none` (classification failure) on an
empty input, a media type without a slash, or an invalid parameter. -/
def parseMediaType (v : String) : Option (String × List (String × String)) :=
  match splitTopSemis v with
  | [] => none
  | mt :: rest =>
    let mediaType := strLower (strTrim mt)
    if mediaType == "" then none
    else if !(mediaType.data.contains '/') then none
    else
      match parseParams rest with
      | some ps => some (mediaType, ps)
      | none => none

/-- Look up a parameter by (already lowercased) key; the empty string if
absent, like indexing a Go map of strings. -/
def paramGet (params : List (String × String)) (k : String) : String :=
  match params.find? (fun p => p.1 == k) with
  | some p => p.2
  | none => ""

/-- Modelled from the spec: the Header Parser folds a block of raw header
lines into a field map.  A line starting with a space or tab is a
continuation of the preceding field's value, joined with a single space;
a `Name: value` line starts a new field; a malformed line without a colon
is skipped (the policy chosen here), as is an initial continuation line.
Fields are accumulated in reverse. -/
def addHeaderLine (acc : List (String × String)) (l : String) : List (String × String) :=
  if l == "" then acc
  else if l.data.head? == some spaceChar || l.data.head? == some tabChar then
    match acc with
    | [] => acc
    | (k, v) :: restAcc => (k, v ++ " " ++ strTrim l) :: restAcc
  else
    match splitAtFirst ':' l.data with
    | some (k, v) => ((String.mk k), strTrim (String.mk v)) :: acc
    | none => acc

/-- Modelled from the spec: parse a header block into an ordered field
map, original casing preserved. -/
def parseHeaderLines (lines : List String) : List (String × String) :=
  (lines.foldl addHeaderLine []).reverse

/-- Modelled from the spec: case-insensitive first-value lookup in a
header field map (`Header.Get` in the Go source); the empty string if the
field is absent. -/
def headerGet (hs : List (String × String)) (name : String) : String :=
  match hs.find? (fun p => strLower p.1 == strLower name) with
  | some p => p.2
  | none => ""

/-- A raw MIME part: the header block and the body, both as lines.
Produced by the tokenizer, consumed by the descender. -/
structure RawPart where
  headerLines : List String
  bodyLines : List String
deriving DecidableEq, Repr

/-- Modelled from the spec: split a tokenized segment into its header
block (up to the first blank line) and its body (the remainder); with no
blank line the whole segment is header and the body is empty. -/
def splitHeaderBody : List String → List String × List String
  | [] => ([], [])
  | l :: ls =>
    if l == "" then ([], ls)
    else
      let r := splitHeaderBody ls
      (l :: r.1, r.2)

/-- Build a `RawPart` from one tokenized segment. -/
def mkRawPart (seg : List String) : RawPart :=
  { headerLines := (splitHeaderBody seg).1, bodyLines := (splitHeaderBody seg).2 }

/-- The header field map of a raw part. -/
def partHeaders (p : RawPart) : List (String × String) :=
  parseHeaderLines p.headerLines

/-- The raw body bytes of a part: its body lines joined by a line feed. -/
def partData (p : RawPart) : String :=
  String.intercalate "\n" p.bodyLines

/-- Modelled from the spec: the Boundary Tokenizer's scan after the first
separator line.  `cur` holds the current segment's lines in reverse.  A
line equal to `--B--` is the terminal marker: the current segment is the
last part and the epilogue is discarded.  A line equal to `--B` ends the
current segment and starts the next.  Stream exhaustion without a
terminal marker is a truncation (second component `true`): the segments
produced so far remain valid and the unterminated tail is discarded. -/
def tokenizeAux (b : String) : List String → List String → List (List String) × Bool
  | _, [] => ([], true)
  | cur, l :: ls =>
    if l == "--" ++ b ++ "--" then ([cur.reverse], false)
    else if l == "--" ++ b then
      let r := tokenizeAux b [] ls
      (cur.reverse :: r.1, r.2)
    else tokenizeAux b (l :: cur) ls

/-- Modelled from the spec: the Boundary Tokenizer
(`multipart.NewReader` plus the `NextPart` loop in the Go source).
Discards the preamble up to the first separator line, then scans
segments; a terminal marker before any separator yields no parts; stream
exhaustion before a terminal marker is a truncation. -/
def tokenize (b : String) : List String → List (List String) × Bool
  | [] => ([], true)
  | l :: ls =>
    if l == "--" ++ b ++ "--" then ([], false)
    else if l == "--" ++ b then tokenizeAux b [] ls
    else tokenize b ls

/-- Modelled from the spec: the value of one character of the BASE64
standard alphabet; `none` for a character outside the alphabet. -/
def b64Val (c : Char) : Option Nat :=
  if 'A' ≤ c ∧ c ≤ 'Z' then some (c.toNat - 65)
  else if 'a' ≤ c ∧ c ≤ 'z' then some (c.toNat - 97 + 26)
  else if '0' ≤ c ∧ c ≤ '9' then some (c.toNat - 48 + 52)
  else if c = '+' then some 62
  else if c = '/' then some 63
  else none

/-- Modelled from the spec: decode BASE64 four-character groups into
byte values.  Padding with `=` may only occur at the end of the input,
in the last group, and only in the patterns `xx==` and `xxx=`; a group of
fewer than four characters, a character outside the alphabet, or
misplaced padding is a decode failure. -/
def b64Groups : List Char → Option (List Nat)
  | [] => some []
  | a :: b :: c :: d :: rest =>
    match b64Val a, b64Val b with
    | some va, some vb =>
      if c = '=' then
        if d = '=' ∧ rest = [] then some [va * 4 + vb / 16]
        else none
      else
        match b64Val c with
        | some vc =>
          if d = '=' then
            if rest = [] then some [va * 4 + vb / 16, (vb % 16) * 16 + vc / 4]
            else none
          else
            match b64Val d with
            | some vd =>
              (fun l => (va * 4 + vb / 16) :: ((vb % 16) * 16 + vc / 4) ::
                        ((vc % 4) * 64 + vd) :: l) <$> b64Groups rest
            | none => none
        | none => none
    | _, _ => none
  | _ => none

/-- Modelled from the spec: the BASE64 branch of the Transfer Decoder
(`base64.StdEncoding.DecodeString` in the Go source): carriage returns
and line feeds are ignored, everything else is decoded strictly with
padding; the decoded bytes are rendered as characters. -/
def base64Decode (s : String) : Option String :=
  match b64Groups (s.data.filter (fun c => !(c == crChar || c == lfChar))) with
  | some bytes => some (String.mk (bytes.map Char.ofNat))
  | none => none

/-- Modelled from the spec: the value of one hexadecimal digit. -/
def hexVal (c : Char) : Option Nat :=
  if '0' ≤ c ∧ c ≤ '9' then some (c.toNat - 48)
  else if 'A' ≤ c ∧ c ≤ 'F' then some (c.toNat - 65 + 10)
  else if 'a' ≤ c ∧ c ≤ 'f' then some (c.toNat - 97 + 10)
  else none

/-- Modelled from the spec: the QUOTED-PRINTABLE branch of the Transfer
Decoder (`mime/quotedprintable` in the Go source).  An equals sign
followed by a line break is a soft line break and is removed; an equals
sign followed by two hexadecimal digits decodes to that byte; any other
equals-sign sequence is an invalid escape and a decode failure. -/
def qpChars : List Char → Option (List Char)
  | [] => some []
  | c :: rest =>
    if c = '=' then
      match rest with
      | [] => none
      | c1 :: rest1 =>
        if c1 = crChar then
          match rest1 with
          | c2 :: rest2 => if c2 = lfChar then qpChars rest2 else none
          | [] => none
        else if c1 = lfChar then qpChars rest1
        else
          match rest1 with
          | c2 :: rest2 =>
            match hexVal c1, hexVal c2 with
            | some h, some l => (fun t => Char.ofNat (16 * h + l) :: t) <$> qpChars rest2
            | _, _ => none
          | [] => none
    else (fun t => c :: t) <$> qpChars rest

/-- Modelled from the spec: quoted-printable decoding of a body string. -/
def qpDecode (s : String) : Option String :=
  (fun l => String.mk l) <$> qpChars s.data

/-- Modelled from the spec: the media-type-to-extension registry
consulted by the File Namer (`mime.ExtensionsByType` in the Go source),
restricted to a fixed table of common types; the first registered
extension is returned, `none` when the lookup fails. -/
def extensionsByType (mediaType : String) : Option String :=
  if mediaType == "text/plain" then some ".txt"
  else if mediaType == "text/html" then some ".htm"
  else if mediaType == "image/png" then some ".png"
  else if mediaType == "image/jpeg" then some ".jpeg"
  else if mediaType == "image/gif" then some ".gif"
  else if mediaType == "application/pdf" then some ".pdf"
  else if mediaType == "application/json" then some ".json"
  else none

/-- Modelled from the spec: the filename from a part's disposition
metadata (`Part.FileName` in the Go source): the `filename` parameter of
the `Content-Disposition` header, the empty string when the header is
absent or its parameters are malformed. -/
def partFileName (p : RawPart) : String :=
  match splitTopSemis (headerGet (partHeaders p) "Content-Disposition") with
  | [] => ""
  | _ :: rest =>
    match parseParams rest with
    | some ps => paramGet ps "filename"
    | none => ""

/-- `BuildFileName` from the source: the disposition filename when
present; else, when the part's own Content-Type classifies and the
extension registry lookup succeeds, `radix-index` with the extension
appended; else the empty string. -/
def BuildFileName (part : RawPart) (radix : String) (index : Nat) : String :=
  let filename := partFileName part
  if filename.length > 0 then filename
  else
    match parseMediaType (headerGet (partHeaders part) "Content-Type") with
    | some (mediaType, _) =>
      match extensionsByType mediaType with
      | some ext => radix ++ "-" ++ toString index ++ ext
      | none => ""
    | none => ""

/-- One observable event of a run: a successful file write, a reported
transfer-decoding failure, or a reported tokenizer failure.  The Go
source discards the error value of `ioutil.WriteFile`, so a failed write
produces no event of any kind. -/
inductive Event where
  | partWritten (name : String) (content : String) : Event
  | decodeError (enc : String) : Event
  | tokenizeError (boundary : String) : Event
deriving DecidableEq, Repr

/-- `WritePart` from the source: read the part's data, dispatch on the
uppercased `Content-Transfer-Encoding`; BASE64 and QUOTED-PRINTABLE are
decoded (a failure is reported and nothing is written), anything else is
passed through unchanged; the write itself succeeds when the file-system
parameter `fs` accepts the name, and a failed write is silent. -/
def WritePart (fs : String → Bool) (part : RawPart) (filename : String) : List Event :=
  let pd := partData part
  let cte := strUpper (headerGet (partHeaders part) "Content-Transfer-Encoding")
  if cte == "BASE64" then
    match base64Decode pd with
    | none => [Event.decodeError "base64"]
    | some d => if fs filename then [Event.partWritten filename d] else []
  else if cte == "QUOTED-PRINTABLE" then
    match qpDecode pd with
    | none => [Event.decodeError "quoted-printable"]
    | some d => if fs filename then [Event.partWritten filename d] else []
  else if fs filename then [Event.partWritten filename pd] else []

/-- `ParsePart` from the source, with an explicit fuel argument making
the recursion structural: tokenize the stream with the boundary; for
each part, classify its `Content-Type`; when classification succeeds and
the media type starts with `multipart/`, recurse on the part's body with
the part's own `boundary` parameter (the empty string when absent) and
`index + 1`; otherwise treat the part as a leaf, naming it with the
enclosing boundary as radix and the constant index `1`, exactly as the
source does.  A tokenizer truncation is reported after the parts.  Fuel
`0` is never reached when the initial fuel exceeds the number of lines
(`parsePartFuel_adequate`). -/
def ParsePartFuel (fs : String → Bool) : Nat → List String → String → Nat → List Event
  | 0, _, _, _ => []
  | Nat.succ fuel, lines, boundary, index =>
    ((tokenize boundary lines).1.map (fun seg =>
      match parseMediaType (headerGet (partHeaders (mkRawPart seg)) "Content-Type") with
      | some (mt, params) =>
        if strStarts mt "multipart/" then
          ParsePartFuel fs fuel (mkRawPart seg).bodyLines (paramGet params "boundary") (index + 1)
        else
          WritePart fs (mkRawPart seg) (BuildFileName (mkRawPart seg) boundary 1)
      | none =>
        WritePart fs (mkRawPart seg) (BuildFileName (mkRawPart seg) boundary 1))).flatten
    ++ (if (tokenize boundary lines).2 then [Event.tokenizeError boundary] else [])

/-- `ParsePart` from the source: run the fuelled descender with
sufficient fuel. -/
def ParsePart (fs : String → Bool) (lines : List String) (boundary : String) (index : Nat) : List Event :=
  ParsePartFuel fs (lines.length + 1) lines boundary index

/-- The body of `ParsePart`'s loop for a single part: recurse for a
successfully classified `multipart/*` part, leaf handling (name and
write) otherwise. -/
def processPart (fs : String → Bool) (part : RawPart) (boundary : String) (index : Nat) : List Event :=
  match parseMediaType (headerGet (partHeaders part) "Content-Type") with
  | some (mt, params) =>
    if strStarts mt "multipart/" then
      ParsePart fs part.bodyLines (paramGet params "boundary") (index + 1)
    else
      WritePart fs part (BuildFileName part boundary 1)
  | none => WritePart fs part (BuildFileName part boundary 1)

/-- `main` from the source, after the external header/body split: parse
the message-level `Content-Type`; a parse failure or a media type not
starting with `multipart/` is fatal before any traversal; otherwise run
`ParsePart` on the body with the extracted boundary at index `1`. -/
def mainRun (fs : String → Bool) (contentType : String) (body : List String) : Except String (List Event) :=
  match parseMediaType contentType with
  | none => Except.error "parse error"
  | some (mediaType, params) =>
    if strStarts mediaType "multipart/" then
      Except.ok (ParsePart fs body (paramGet params "boundary") 1)
    else
      Except.error "Not a multipart MIME message"

/-- The always-succeeding file system. -/
def fsAll : String → Bool := fun _ => true

/-- The always-failing file system. -/
def fsNone : String → Bool := fun _ => false

/-- The decode outcome of a part's body under its declared transfer
encoding: the same dispatch as `WritePart`, without the write. -/
def decodedBody (p : RawPart) : Option String :=
  let cte := strUpper (headerGet (partHeaders p) "Content-Transfer-Encoding")
  if cte == "BASE64" then base64Decode (partData p)
  else if cte == "QUOTED-PRINTABLE" then qpDecode (partData p)
  else some (partData p)

/-- The label under which `WritePart` reports a decode failure. -/
def encLabel (p : RawPart) : String :=
  if strUpper (headerGet (partHeaders p) "Content-Transfer-Encoding") == "BASE64" then "base64"
  else "quoted-printable"

/-- A part is a leaf when its `Content-Type` fails to classify or its
media type does not start with `multipart/`. -/
def isLeafPart (p : RawPart) : Bool :=
  match parseMediaType (headerGet (partHeaders p) "Content-Type") with
  | some (mt, _) => !(strStarts mt "multipart/")
  | none => true

/-- A flat two-part message whose multipart-typed first part lacks a
`boundary` parameter. -/
def c1lines : List String :=
  ["--B", "Content-Type: multipart/mixed", "", "data line", "--B--"]

/-- The single part of `c1lines`: multipart-typed, no boundary parameter. -/
def c1part : RawPart := mkRawPart ["Content-Type: multipart/mixed", "", "data line"]

/-- A flat message with two leaves of the same media type and no
disposition filenames. -/
def c2lines : List String :=
  ["--B", "Content-Type: text/html", "", "one",
   "--B", "Content-Type: text/html", "", "two", "--B--"]

/-- A flat well-formed two-leaf message. -/
def c3lines : List String :=
  ["--B", "Content-Type: text/plain", "", "alpha", "--B", "", "beta", "--B--"]

/-- A leaf part declaring an identity transfer encoding in lower case. -/
def c5part : RawPart :=
  mkRawPart ["Content-Transfer-Encoding: 8bit", "", "raw-bytes"]

/-- A flat message whose middle leaf carries an undecodable BASE64 body. -/
def c6lines : List String :=
  ["--B", "Content-Type: text/plain", "", "ok1",
   "--B", "Content-Type: text/plain", "Content-Transfer-Encoding: base64", "", "!!!!",
   "--B", "Content-Type: text/plain", "", "ok2", "--B--"]

/-- The segments of `c6lines`, as the tokenizer yields them. -/
def c6seg1 : List String := ["Content-Type: text/plain", "", "ok1"]

/-- The failing middle segment of `c6lines`. -/
def c6seg2 : List String :=
  ["Content-Type: text/plain", "Content-Transfer-Encoding: base64", "", "!!!!"]

/-- The last segment of `c6lines`. -/
def c6seg3 : List String := ["Content-Type: text/plain", "", "ok2"]

/-- A part with no disposition filename whose Content-Type has a
syntactically invalid parameter, so classification fails. -/
def c7part : RawPart := mkRawPart ["Content-Type: text/html; charset", "", "payload"]

/-- A part with no disposition filename whose Content-Type classifies to
a registered media type. -/
def c7wpart : RawPart := mkRawPart ["Content-Type: text/plain", "", "x"]

/-- A leaf part whose body decodes trivially. -/
def c8part : RawPart := mkRawPart ["Content-Type: text/plain", "", "payload"]

/-- The boundary used at nesting level `n` of `nestedLines`. -/
def bnd (n : Nat) : String := String.mk (List.replicate (n + 1) 'a')

/-- A message whose multipart nesting is `n` levels deep, with a single
`text/plain` leaf at the innermost level; level `k` uses boundary
`bnd k`. -/
def nestedLines : Nat → List String
  | 0 => ["--" ++ bnd 0, "Content-Type: text/plain", "", "hi", "--" ++ bnd 0 ++ "--"]
  | Nat.succ n =>
      ["--" ++ bnd (n + 1),
       "Content-Type: multipart/mixed; boundary=" ++ bnd n,
       ""] ++ nestedLines n ++ ["--" ++ bnd (n + 1) ++ "--"]

/-! ## Structural lemmas about the tokenizer -/

/-- Every segment the tokenizer scan yields is no longer than the
pending segment plus the remaining stream. -/
theorem tokenizeAux_mem_len (b : String) :
    ∀ (ls cur : List String), ∀ seg ∈ (tokenizeAux b cur ls).1,
      seg.length ≤ cur.length + ls.length := by
  intro ls
  induction ls with
  | nil =>
    intro cur seg hseg
    simp [tokenizeAux] at hseg
  | cons l ls ih =>
    intro cur seg hseg
    simp only [tokenizeAux] at hseg
    split at hseg
    · simp only [List.mem_singleton] at hseg
      subst hseg
      simp only [List.length_reverse, List.length_cons]
      omega
    · split at hseg
      · simp only [List.mem_cons] at hseg
        rcases hseg with h | h
        · subst h
          simp only [List.length_reverse, List.length_cons]
          omega
        · have := ih [] seg h
          simp only [List.length_nil, List.length_cons] at this ⊢
          omega
      · have := ih (l :: cur) seg hseg
        simp only [List.length_cons] at this ⊢
        omega

/-- Every segment the tokenizer yields is strictly shorter than the
input stream. -/
theorem tokenize_mem_len (b : String) :
    ∀ (ls : List String), ∀ seg ∈ (tokenize b ls).1, seg.length < ls.length := by
  intro ls
  induction ls with
  | nil =>
    intro seg hseg
    simp [tokenize] at hseg
  | cons l ls ih =>
    intro seg hseg
    simp only [tokenize] at hseg
    split at hseg
    · simp at hseg
    · split at hseg
      · have := tokenizeAux_mem_len b ls [] seg hseg
        simp only [List.length_nil, List.length_cons] at this ⊢
        omega
      · have := ih seg hseg
        simp only [List.length_cons]
        omega

/-- The body produced by the header/body split is no longer than the
segment. -/
theorem splitHeaderBody_body_le :
    ∀ ls : List String, (splitHeaderBody ls).2.length ≤ ls.length := by
  intro ls
  induction ls with
  | nil => simp [splitHeaderBody]
  | cons l ls ih =>
    simp only [splitHeaderBody]
    split
    · simp
    · simpa using Nat.le_succ_of_le ih

/-- A raw part's body is no longer than the segment it came from. -/
theorem mkRawPart_body_le (seg : List String) :
    (mkRawPart seg).bodyLines.length ≤ seg.length :=
  splitHeaderBody_body_le seg

/-! ## The fuel of `ParsePartFuel` is irrelevant once sufficient -/

/-- Any two sufficient fuels give the recursive descender the same
behaviour: the fuel is a termination device, not part of the
semantics. -/
theorem parsePartFuel_adequate (fs : String → Bool) :
    ∀ (N : Nat) (lines : List String) (b : String) (i f1 f2 : Nat),
      lines.length ≤ N → lines.length < f1 → lines.length < f2 →
      ParsePartFuel fs f1 lines b i = ParsePartFuel fs f2 lines b i := by
  intro N
  induction N with
  | zero =>
    intro lines b i f1 f2 hN h1 h2
    have hl : lines = [] := List.eq_nil_of_length_eq_zero (Nat.le_zero.mp hN)
    subst hl
    cases f1 with
    | zero => simp at h1
    | succ n1 =>
      cases f2 with
      | zero => simp at h2
      | succ n2 => rfl
  | succ N ih =>
    intro lines b i f1 f2 hN h1 h2
    cases f1 with
    | zero => omega
    | succ n1 =>
      cases f2 with
      | zero => omega
      | succ n2 =>
        simp only [ParsePartFuel]
        congr 1
        congr 1
        apply List.map_congr_left
        intro seg hseg
        have hseg_lt : seg.length < lines.length := tokenize_mem_len b lines seg hseg
        have hbody : (mkRawPart seg).bodyLines.length ≤ seg.length := mkRawPart_body_le seg
        cases hc : parseMediaType (headerGet (partHeaders (mkRawPart seg)) "Content-Type") with
        | none => simp only [hc]
        | some v =>
          obtain ⟨mt, params⟩ := v
          simp only [hc]
          by_cases hmp : strStarts mt "multipart/" = true
          · simp only [hmp, if_true]
            exact ih (mkRawPart seg).bodyLines (paramGet params "boundary") (i + 1) n1 n2
              (by omega) (by omega) (by omega)
          · simp only [Bool.not_eq_true] at hmp
            simp [hmp]

/-- Unfolding `ParsePart` one level: the events of a run are the
concatenated per-part events, in stream order, followed by the report of
a tokenizer truncation if there was one. -/
theorem ParsePart_eq (fs : String → Bool) (lines : List String) (b : String) (i : Nat) :
    ParsePart fs lines b i
      = ((tokenize b lines).1.map (fun seg => processPart fs (mkRawPart seg) b i)).flatten
        ++ (if (tokenize b lines).2 then [Event.tokenizeError b] else []) := by
  unfold ParsePart
  simp only [ParsePartFuel]
  congr 1
  congr 1
  apply List.map_congr_left
  intro seg hseg
  have hseg_lt : seg.length < lines.length := tokenize_mem_len b lines seg hseg
  have hbody : (mkRawPart seg).bodyLines.length ≤ seg.length := mkRawPart_body_le seg
  unfold processPart
  cases hc : parseMediaType (headerGet (partHeaders (mkRawPart seg)) "Content-Type") with
  | none => simp only [hc]
  | some v =>
    obtain ⟨mt, params⟩ := v
    simp only [hc]
    by_cases hmp : strStarts mt "multipart/" = true
    · simp only [hmp, if_true]
      unfold ParsePart
      exact parsePartFuel_adequate fs (mkRawPart seg).bodyLines.length
        (mkRawPart seg).bodyLines (paramGet params "boundary") (i + 1)
        lines.length ((mkRawPart seg).bodyLines.length + 1)
        (Nat.le_refl _) (by omega) (by omega)
    · simp only [Bool.not_eq_true] at hmp
      simp [hmp]

/-! ## Dispatch lemmas -/

/-- `WritePart` through the decode outcome: a successful decode writes
the decoded bytes when the file system accepts the name and is silent
otherwise; a failed decode reports and writes nothing. -/
theorem WritePart_eq (fs : String → Bool) (p : RawPart) (fn : String) :
    WritePart fs p fn
      = match decodedBody p with
        | some d => if fs fn then [Event.partWritten fn d] else []
        | none => [Event.decodeError (encLabel p)] := by
  unfold WritePart decodedBody encLabel
  by_cases h1 : (strUpper (headerGet (partHeaders p) "Content-Transfer-Encoding") == "BASE64") = true
  · simp only [h1, if_true]
    cases base64Decode (partData p) <;> simp
  · simp only [h1]
    by_cases h2 : (strUpper (headerGet (partHeaders p) "Content-Transfer-Encoding") == "QUOTED-PRINTABLE") = true
    · simp only [h2, if_true, Bool.false_eq_true, if_false]
      cases qpDecode (partData p) <;> simp [h1]
    · simp only [Bool.not_eq_true] at h1 h2
      simp [h1, h2]

/-- A leaf part (unclassifiable or non-multipart Content-Type) is
handled by naming and writing, with the enclosing boundary as radix and
the constant index `1`. -/
theorem processPart_leaf (fs : String → Bool) (p : RawPart) (b : String) (i : Nat)
    (h : isLeafPart p = true) :
    processPart fs p b i = WritePart fs p (BuildFileName p b 1) := by
  unfold processPart
  unfold isLeafPart at h
  cases hc : parseMediaType (headerGet (partHeaders p) "Content-Type") with
  | none => simp only [hc]
  | some v =>
    obtain ⟨mt, params⟩ := v
    rw [hc] at h
    simp only [Bool.not_eq_eq_eq_not, Bool.not_true] at h
    simp [hc, h]

/-- A part whose Content-Type classifies with a `multipart/` media type
is recursed into with the part's `boundary` parameter, whether or not
that parameter is present. -/
theorem processPart_multipart (fs : String → Bool) (p : RawPart) (b : String) (i : Nat)
    (mt : String) (params : List (String × String))
    (hc : parseMediaType (headerGet (partHeaders p) "Content-Type") = some (mt, params))
    (hmp : strStarts mt "multipart/" = true) :
    processPart fs p b i = ParsePart fs p.bodyLines (paramGet params "boundary") (i + 1) := by
  unfold processPart
  simp [hc, hmp]

/-- Flattening a list of singletons is a map. -/
theorem flatten_singletons {α β : Type} (l : List α) (f : α → β) :
    (l.map (fun a => [f a])).flatten = l.map f := by
  induction l with
  | nil => rfl
  | cons a l ih => simp [ih]

/-- The `index` argument never reaches an event: both runs take the
same branches, and the leaf branch passes the constant `1` to the
namer. -/
theorem parsePart_index_irrel (fs : String → Bool) :
    ∀ (N : Nat) (lines : List String) (b : String) (i j : Nat),
      lines.length ≤ N → ParsePart fs lines b i = ParsePart fs lines b j := by
  intro N
  induction N with
  | zero =>
    intro lines b i j hN
    have hl : lines = [] := List.eq_nil_of_length_eq_zero (Nat.le_zero.mp hN)
    subst hl
    rfl
  | succ N ih =>
    intro lines b i j hN
    rw [ParsePart_eq, ParsePart_eq]
    congr 1
    congr 1
    apply List.map_congr_left
    intro seg hseg
    have hseg_lt : seg.length < lines.length := tokenize_mem_len b lines seg hseg
    have hbody : (mkRawPart seg).bodyLines.length ≤ seg.length := mkRawPart_body_le seg
    cases hc : parseMediaType (headerGet (partHeaders (mkRawPart seg)) "Content-Type") with
    | none => simp only [processPart, hc]
    | some v =>
      obtain ⟨mt, params⟩ := v
      by_cases hmp : strStarts mt "multipart/" = true
      · rw [processPart_multipart fs _ b i mt params hc hmp,
          processPart_multipart fs _ b j mt params hc hmp]
        exact ih (mkRawPart seg).bodyLines (paramGet params "boundary") (i + 1) (j + 1) (by omega)
      · simp only [Bool.not_eq_true] at hmp
        simp only [processPart, hc, hmp]
        simp

/-! ## Claims -/

/-- C1 (counterexample): the claim says a part whose Content-Type
classifies as `multipart/*` but lacks a boundary parameter is treated as
a leaf (decode, name, emit) and is not recursed into.  On `c1lines` the
code does the opposite: it recurses into the part with the empty
boundary (producing only the tokenizer-failure report of that inner
run), and its events differ from the leaf handling of that part. -/
theorem C1_cex :
    ParsePart fsAll c1lines "B" 1 = [Event.tokenizeError ""] ∧
    ¬ ParsePart fsAll c1lines "B" 1 = WritePart fsAll c1part (BuildFileName c1part "B" 1) := by
  constructor
  · decide
  · decide

/-- C1 (amended): whenever a part's Content-Type classification succeeds
and the media type starts with `multipart/`, the descender recurses into
the part's body with the part's `boundary` parameter — which is the
empty string when the parameter is missing — regardless of whether a
non-empty boundary is present; only classification failure or a
non-multipart media type gives leaf handling. -/
theorem C1_recursion_unconditional (fs : String → Bool) (p : RawPart) (b : String) (i : Nat)
    (mt : String) (params : List (String × String))
    (hc : parseMediaType (headerGet (partHeaders p) "Content-Type") = some (mt, params))
    (hmp : strStarts mt "multipart/" = true) :
    processPart fs p b i = ParsePart fs p.bodyLines (paramGet params "boundary") (i + 1) :=
  processPart_multipart fs p b i mt params hc hmp

/-- C1 (witness): the multipart-typed part of `c1lines` has no boundary
parameter, yet the descender recurses into its body with the empty
boundary at depth 2. -/
theorem C1_recursion_unconditional_witness :
    processPart fsAll c1part "B" 1 = ParsePart fsAll c1part.bodyLines "" 2 :=
  C1_recursion_unconditional fsAll c1part "B" 1 "multipart/mixed" [] (by decide) (by decide)

/-- C2 (code bug): the constant `1` passed by `ParsePart` to
`BuildFileName` makes the two distinct leaves of `c2lines` receive the
same output name `B-1.htm`, violating the claimed run-wide uniqueness of
emitted file names. -/
theorem C2_name_collision :
    ParsePart fsAll c2lines "B" 1
      = [Event.partWritten "B-1.htm" "one", Event.partWritten "B-1.htm" "two"] := by
  decide

/-- C3: for a well-formed input (tokenization finds the terminal marker)
whose parts are all leaves (no nesting) and all decode successfully, on
an accepting file system the run emits exactly one `partWritten` per
leaf, in stream order. -/
theorem C3_flat_emissions (lines : List String) (b : String)
    (h1 : (tokenize b lines).2 = false)
    (h2 : ∀ seg ∈ (tokenize b lines).1, isLeafPart (mkRawPart seg) = true)
    (h3 : ∀ seg ∈ (tokenize b lines).1, (decodedBody (mkRawPart seg)).isSome = true) :
    ParsePart fsAll lines b 1
      = (tokenize b lines).1.map (fun seg =>
          Event.partWritten (BuildFileName (mkRawPart seg) b 1)
            ((decodedBody (mkRawPart seg)).getD "")) := by
  rw [ParsePart_eq, h1]
  simp only [Bool.false_eq_true, if_false, List.append_nil]
  rw [List.map_congr_left (g := fun seg =>
      [Event.partWritten (BuildFileName (mkRawPart seg) b 1)
        ((decodedBody (mkRawPart seg)).getD "")]) ?_]
  · exact flatten_singletons ((tokenize b lines).1) _
  · intro seg hseg
    obtain ⟨d, hd⟩ := Option.isSome_iff_exists.mp (h3 seg hseg)
    rw [processPart_leaf fsAll _ b 1 (h2 seg hseg), WritePart_eq, hd]
    simp [fsAll, hd]

/-- C3 (witness): the two-leaf flat message `c3lines` produces exactly
two writes, in stream order. -/
theorem C3_flat_emissions_witness :
    ParsePart fsAll c3lines "B" 1
      = [Event.partWritten "B-1.txt" "alpha", Event.partWritten "" "beta"] :=
  (C3_flat_emissions c3lines "B" (by decide) (by decide) (by decide)).trans (by decide)

/-- C4: the run is refused — `mainRun` returns an error, producing no
events at all — exactly when the top-level Content-Type fails to
classify (missing or unparsable) or its media type does not start with
`multipart/`; no other input condition aborts the whole run. -/
theorem C4_fatal_top_level :
    ∀ (fs : String → Bool) (ct : String) (body : List String),
      (∃ msg, mainRun fs ct body = Except.error msg) ↔
        (parseMediaType ct = none ∨
          ∃ mt params, parseMediaType ct = some (mt, params) ∧
            strStarts mt "multipart/" = false) := by
  intro fs ct body
  unfold mainRun
  cases hc : parseMediaType ct with
  | none => simp
  | some v =>
    obtain ⟨mt, params⟩ := v
    by_cases hmp : strStarts mt "multipart/" = true
    · simp [hmp]
    · simp only [Bool.not_eq_true] at hmp
      simp [hmp]

/-- C5: a leaf part whose uppercased Content-Transfer-Encoding is
neither `BASE64` nor `QUOTED-PRINTABLE` — so `7BIT`, `8BIT`, `BINARY`,
any unrecognized token, or an absent header — is written with bytes
identical to its raw body. -/
theorem C5_identity_passthrough (fs : String → Bool) (p : RawPart) (fn : String)
    (h1 : ¬ strUpper (headerGet (partHeaders p) "Content-Transfer-Encoding") = "BASE64")
    (h2 : ¬ strUpper (headerGet (partHeaders p) "Content-Transfer-Encoding") = "QUOTED-PRINTABLE") :
    WritePart fs p fn = if fs fn then [Event.partWritten fn (partData p)] else [] := by
  unfold WritePart
  simp [h1, h2]

/-- C5 (witness): a part declaring `8bit` is passed through unchanged. -/
theorem C5_identity_passthrough_witness :
    WritePart fsAll c5part "f.bin"
      = if fsAll "f.bin" then [Event.partWritten "f.bin" (partData c5part)] else [] :=
  C5_identity_passthrough fsAll c5part "f.bin" (by decide) (by decide)

/-- C6: when tokenization yields `pre ++ seg :: post` and `seg` is a
leaf whose body fails to decode, the run reports exactly one decode
failure for `seg`, produces no write for it, and the events of the
preceding and following sibling parts are exactly what they would be on
their own. -/
theorem C6_decode_failure_isolated (fs : String → Bool) (b : String) (i : Nat)
    (pre : List (List String)) (seg : List String) (post : List (List String))
    (lines : List String)
    (hparts : (tokenize b lines).1 = pre ++ seg :: post)
    (hleaf : isLeafPart (mkRawPart seg) = true)
    (hfail : decodedBody (mkRawPart seg) = none) :
    ParsePart fs lines b i
      = ((pre.map (fun s => processPart fs (mkRawPart s) b i)).flatten)
        ++ ([Event.decodeError (encLabel (mkRawPart seg))]
        ++ (((post.map (fun s => processPart fs (mkRawPart s) b i)).flatten)
        ++ (if (tokenize b lines).2 then [Event.tokenizeError b] else []))) := by
  rw [ParsePart_eq, hparts]
  rw [List.map_append, List.map_cons, List.flatten_append, List.flatten_cons]
  rw [processPart_leaf fs _ b i hleaf, WritePart_eq, hfail]
  simp [List.append_assoc]

/-- C6 (witness): in `c6lines` the middle leaf's BASE64 body fails to
decode; the run reports it once and both sibling leaves are written
unaffected. -/
theorem C6_decode_failure_isolated_witness :
    ParsePart fsAll c6lines "B" 1
      = [Event.partWritten "B-1.txt" "ok1", Event.decodeError "base64",
         Event.partWritten "B-1.txt" "ok2"] :=
  (C6_decode_failure_isolated fsAll "B" 1 [c6seg1] c6seg2 [c6seg3] c6lines
    (by decide) (by decide) (by decide)).trans (by decide)

/-- C7 (counterexample): the claim says a leaf with no disposition
filename whose Content-Type does not classify gets the name
`radix-index` with no extension, and that the name is never empty.  On
`c7part` (invalid Content-Type parameter) `BuildFileName` returns the
empty string, not `B-1`. -/
theorem C7_cex :
    BuildFileName c7part "B" 1 = "" ∧ ¬ BuildFileName c7part "B" 1 = "B-1" := by
  constructor
  · decide
  · decide

/-- C7 (amended): for a leaf with no disposition filename, the namer
returns `radix-index` with the registered extension appended when the
part's Content-Type classifies and the extension lookup succeeds, and
the empty string otherwise (both when classification fails and when no
extension is registered); the name is not `radix-index` without an
extension, and it can be empty. -/
theorem C7_no_filename_shape (p : RawPart) (radix : String) (index : Nat)
    (h : partFileName p = "") :
    BuildFileName p radix index
      = match parseMediaType (headerGet (partHeaders p) "Content-Type") with
        | some (mediaType, _) =>
          match extensionsByType mediaType with
          | some ext => radix ++ "-" ++ toString index ++ ext
          | none => ""
        | none => "" := by
  unfold BuildFileName
  simp [h]

/-- C7 (witness): a `text/plain` part with no disposition filename is
named `rad-3.txt`. -/
theorem C7_no_filename_shape_witness : BuildFileName c7wpart "rad" 3 = "rad-3.txt" :=
  (C7_no_filename_shape c7wpart "rad" 3 (by decide)).trans (by decide)

/-- C8 (counterexample): the claim says a leaf whose write fails has the
failure reported per-part.  On a file system rejecting every name, the
successfully decoded part `c8part` produces no event whatsoever — the Go
code discards the error returned by the write, so the failure is never
reported. -/
theorem C8_cex :
    decodedBody c8part = some "payload" ∧ WritePart fsNone c8part "out.txt" = [] := by
  constructor
  · decide
  · decide

/-- C8 (amended): a leaf whose body decodes but whose write fails
produces no event at all: no artifact, no success report, and — contrary
to the original claim — no failure report either; processing of sibling
parts continues unaffected since the part contributes no events. -/
theorem C8_silent_write_failure (fs : String → Bool) (p : RawPart) (fn : String) (d : String)
    (hd : decodedBody p = some d) (hw : fs fn = false) :
    WritePart fs p fn = [] := by
  rw [WritePart_eq, hd]
  simp [hw]

/-- C8 (witness): the decoded part `c8part` on the rejecting file system
yields no events. -/
theorem C8_silent_write_failure_witness : WritePart fsNone c8part "other.txt" = [] :=
  C8_silent_write_failure fsNone c8part "other.txt" "payload" (by decide) (by decide)

set_option maxRecDepth 200000 in
/-- C9 (code bug): the claim says recursion depth is bounded by a
configurable maximum (default around 50), branches beyond it failing
closed.  `ParsePart` has no depth parameter at all: on a message nested
60 multipart levels deep it recurses through all 61 levels and emits the
innermost leaf instead of failing any branch closed. -/
theorem C9_unbounded_depth :
    ParsePart fsAll (nestedLines 60) (bnd 60) 1 = [Event.partWritten "a-1.txt" "hi"] := by
  decide

/-- C10: the `index` argument of `ParsePart` affects no event of the
run — the set of files written, their names and contents are identical
for any two indices, because the leaf branch forwards the constant `1`
(never `index`) to the namer and `index` otherwise only controls
diagnostic indentation, which is not observable output. -/
theorem C10_index_frame :
    ∀ (fs : String → Bool) (lines : List String) (b : String) (i j : Nat),
      ParsePart fs lines b i = ParsePart fs lines b j :=
  fun fs lines b i j => parsePart_index_irrel fs lines.length lines b i j (Nat.le_refl _)

end MimeEmail
